import Mathlib

/-!
Shallow embedding of `src/photomitrus/sky/gen_sky.py` (sky-background
generation engine of the prime-photometry repository), together with
theorems settling the frozen claims about it.

Modelling conventions
- An image sample is `Option ℚ`: `none` is the missing sentinel (IEEE NaN
  in the source), `some q` is a finite sample value.  Exact rationals stand
  in for IEEE doubles, the standard idealization; `±∞` is not modelled
  separately (a nonzero value divided by zero is kept as a non-missing
  stand-in value, matching the fact that `np.isnan(±inf)` is false, which
  is all the verified properties depend on; `0/0` is modelled faithfully
  as the missing sentinel).
- A matrix (`numpy` 2-D array) is a total function `Fin m → Fin n → Option ℚ`.
- A FITS header is an association list of string keys to string values,
  with `header.get(key, default)` modelled by `List.lookup`/`Option.getD`.
- The astropy `sigma_clip` routine is an external collaborator; it is
  passed in as an opaque mask-producing function (`ClipFun`).
- File-system access (`os.listdir`, `fits.getdata`, `fits.getheader`) is
  the external Image Store Adapter: the directory listing and the
  `getdata`/`getheader` maps are parameters of the embedded pipeline.
- Fallible operations are an `Except`: the `IndexError` that
  `image_fnames[-1]` raises exactly when no file matched the input-suffix
  filter is the spec's `EmptyInputError`; the `IndexError` that
  `image_fnames[0][-10]` would raise on a path shorter than 10 characters
  is `Err.indexError`.
- Python's stable lexicographic list sort is modelled by insertion sort:
  on a list of strings every correct sort produces the same list.
- `int(nfiles / sky_group_size)` (true division then truncation) is
  modelled as exact floor division `Nat.div`: truncating the exact
  quotient of nonnegative integers is the floor.
- The diagnostic `print` calls and the `plt.imsave` side effect carry no
  data flow and are omitted.
-/

/-- A 2-D sample matrix: `none` is the missing (NaN) sentinel. -/
def Mat (m n : ℕ) : Type := Fin m → Fin n → Option ℚ

instance : DecidableEq (Mat m n) := by
  unfold Mat
  infer_instance

/-- FITS header: ordered mapping of string keys to string values. -/
def Header : Type := List (String × String)

/-- Python `header.get(key, default)`. -/
def header_get (h : Header) (key dflt : String) : String :=
  (List.lookup key h).getD dflt

/-- NaN-propagating addition: any missing operand poisons the sum. -/
def optAdd : Option ℚ → Option ℚ → Option ℚ
  | some a, some b => some (a + b)
  | _, _ => none

/-- NaN-propagating subtraction. -/
def optSub : Option ℚ → Option ℚ → Option ℚ
  | some a, some b => some (a - b)
  | _, _ => none

/-- NaN-propagating sum of a list of samples. -/
def optSumList (l : List (Option ℚ)) : Option ℚ :=
  l.foldr optAdd (some 0)

/-- Elementwise matrix subtraction (`image - sky` in the source). -/
def matSub (A B : Mat m n) : Mat m n := fun i j => optSub (A i j) (B i j)

/-- Numpy division of samples.  `NaN` in either operand propagates;
`0/0` is NaN (missing); a nonzero value divided by zero is `±inf` in
IEEE arithmetic, a non-missing value, kept here as the (finite)
stand-in `some (a / 0) = some 0` — only its non-missingness matters. -/
def np_div : Option ℚ → Option ℚ → Option ℚ
  | none, _ => none
  | some _, none => none
  | some a, some b => if a = 0 ∧ b = 0 then none else some (a / b)

/-- Numpy `np.median` on a nonempty list of finite values: sort
ascending; middle element for odd length, mean of the two middle
elements for even length. -/
def npmedian (l : List ℚ) : ℚ :=
  let s := List.insertionSort (· ≤ ·) l
  if l.length % 2 = 1 then s.getD (l.length / 2) 0
  else (s.getD (l.length / 2 - 1) 0 + s.getD (l.length / 2) 0) / 2

/-- Numpy `np.nanmedian` of a list of samples: the median of the
non-missing values, or NaN when every value is missing. -/
def nanmedian1 (vs : List (Option ℚ)) : Option ℚ :=
  let valid := vs.filterMap id
  if valid = [] then none else some (npmedian valid)

/-- Numpy `np.median` on samples (NaN-poisoning): NaN if any window value
is NaN, else the median.  `scipy.ndimage.median_filter` leaves its NaN
behavior unspecified; no verified property depends on the filtered value
at a window that mixes missing and valid samples, and at an all-missing
window every semantics returns NaN, which this definition does. -/
def npMedianOpt (l : List (Option ℚ)) : Option ℚ :=
  if l.any (fun o => o.isNone) then none else some (npmedian (l.filterMap id))

/-- All index pairs of an `m × n` matrix (row-major). -/
def positions (m n : ℕ) : List (Fin m × Fin n) :=
  (List.finRange m).flatMap (fun i => (List.finRange n).map (Prod.mk i))

/-- Number of missing samples of a matrix (`np.count_nonzero(np.isnan(·))`). -/
def missingCount (M : Mat m n) : ℕ :=
  (positions m n).countP (fun p => decide (M p.1 p.2 = none))

/-- Percentage of missing samples:
`100 * np.count_nonzero(np.isnan(image)) / (image.shape[0] * image.shape[1])`. -/
def nanPercent (M : Mat m n) : ℚ :=
  100 * (missingCount M : ℚ) / ((m : ℚ) * (n : ℚ))

/-- Global `np.nanmedian(image)` over all samples of a matrix. -/
def nanmedianAll (M : Mat m n) : Option ℚ :=
  nanmedian1 ((positions m n).map (fun p => M p.1 p.2))

/-- Elementwise `np.nanmedian(images, axis=0)` across a stack of
same-size matrices. -/
def nanmedianStack (imgs : List (Mat m n)) : Mat m n :=
  fun i j => nanmedian1 (imgs.map (fun M => M i j))

/-- Replace every missing sample by `v` (`image[np.isnan(image)] = v`). -/
def fillMissing (M : Mat m n) (v : Option ℚ) : Mat m n :=
  fun i j => if M i j = none then v else M i j

/-- Per-image normalization `img / np.nanmedian(img)`. -/
def normalizeImg (M : Mat m n) : Mat m n :=
  fun i j => np_div (M i j) (nanmedianAll M)

/-- Scipy boundary mode `reflect` (the `ndimage.median_filter` default):
index `x` folded into `[0, len)` with edge duplication,
`(d c b a | a b c d | d c b a)`. -/
def reflectIdx (x : ℤ) (len : ℕ) (hlen : 0 < len) : Fin len :=
  let p : ℤ := 2 * len
  let r : ℤ := (x % p + p) % p
  have hp : 0 < p := by positivity
  have h0 : 0 ≤ r := Int.emod_nonneg _ (by omega)
  have h1 : r < p := Int.emod_lt_of_pos _ hp
  if hr : r < len then ⟨r.toNat, by omega⟩
  else ⟨(2 * len - 1 - r).toNat, by omega⟩

/-- Window offsets of a scipy filter of the given size, centered with
origin 0: `k - size / 2` for `k = 0, …, size - 1`. -/
def windowOffsets (size : ℕ) : List ℤ :=
  (List.range size).map (fun k => (k : ℤ) - (size / 2 : ℕ))

/-- Scipy `ndimage.median_filter(image, size=size)` with the default
`reflect` boundary mode, NaN behavior as in `npMedianOpt`. -/
def medianFilter (M : Mat m n) (size : ℕ) : Mat m n :=
  fun i j =>
    let vals := (windowOffsets size).flatMap (fun di =>
      (windowOffsets size).map (fun dj =>
        M (reflectIdx ((i : ℤ) + di) m i.pos) (reflectIdx ((j : ℤ) + dj) n j.pos)))
    npMedianOpt vals

/-- Sample at integer coordinates with `constant` boundary mode
(`cval = 0.0`): out-of-bounds positions read as 0. -/
def boundedGet (M : Mat m n) (x y : ℤ) : Option ℚ :=
  if hx : 0 ≤ x ∧ x < (m : ℤ) ∧ 0 ≤ y ∧ y < (n : ℤ) then
    M ⟨x.toNat, by omega⟩ ⟨y.toNat, by omega⟩
  else some 0

/-- One 1-D pass of the separable box mean along the row axis with
`constant` (zero) padding. -/
def meanPassRows (M : Mat m n) (size : ℕ) : Mat m n :=
  fun i j =>
    (optSumList ((windowOffsets size).map (fun d =>
      boundedGet M ((i : ℤ) + d) (j : ℤ)))).map (fun x => x / (size : ℚ))

/-- One 1-D pass of the separable box mean along the column axis with
`constant` (zero) padding. -/
def meanPassCols (M : Mat m n) (size : ℕ) : Mat m n :=
  fun i j =>
    (optSumList ((windowOffsets size).map (fun d =>
      boundedGet M (i : ℤ) ((j : ℤ) + d)))).map (fun x => x / (size : ℚ))

/-- Scipy `ndimage.uniform_filter(image, size=size, mode='constant')`:
the separable box mean — one 1-D mean pass per axis, zero padding,
NaN propagating through the sums; the composition is the mean over the
`size × size` square window with zeros outside the matrix. -/
def uniformFilter (M : Mat m n) (size : ℕ) : Mat m n :=
  meanPassCols (meanPassRows M size) size

/-- Opaque astropy `sigma_clip`: from the background matrix
(`image - sky`) and a sigma value, produce the rejection mask. -/
def ClipFun (m n : ℕ) : Type := Mat m n → ℚ → (Fin m → Fin n → Bool)

/-- Source `sigma_clipped(image, sigma, sky=0)`: identity when `sigma`
is `None`; otherwise sets the samples masked by
`sigma_clip(image - sky, sigma, maxiters=5)` to NaN. -/
def sigma_clipped (clip : ClipFun m n) (image : Mat m n) (sigma : Option ℚ)
    (sky : Mat m n := fun _ _ => some 0) : Mat m n :=
  match sigma with
  | none => image
  | some s =>
    let mask := clip (matSub image sky) s
    fun i j => if mask i j then none else image i j

/-- Source `median_filter_masking(image, size=50)`: replace exactly the
missing samples by the corresponding samples of the median-filtered
matrix.  The diagnostic prints are omitted. -/
def median_filter_masking (image : Mat m n) (size : ℕ := 50) : Mat m n :=
  let median_filter_image := medianFilter image size
  fun i j => if image i j = none then median_filter_image i j else image i j

/-- Source `mean_filter_masking(image, size=30)`: seed the missing
samples with the global nanmedian, box-mean filter the seeded matrix
(`ndimage.uniform_filter(filter_image, size=size, mode='constant')` —
the `disk(size)` footprint built on the first line is never used by the
active code), then replace exactly the originally-missing samples by the
filtered samples.  The `plt.imsave` side effect and prints are omitted. -/
def mean_filter_masking (image : Mat m n) (size : ℕ := 30) : Mat m n :=
  let filter_image := fillMissing image (nanmedianAll image)
  let mean_filter_image := uniformFilter filter_image size
  fun i j => if image i j = none then mean_filter_image i j else image i j

/-- Group count of `gen_sky_image` lines 78-80: `int(nfiles /
sky_group_size)`, decremented when multiplying back overshoots. -/
def ngroups_adjusted (nfiles g : ℕ) : ℕ :=
  let ngroups := nfiles / g
  if ngroups * g > nfiles then ngroups - 1 else ngroups

/-- The group slices of the `for i in range(ngroups)` loop:
`image_fnames[file_counter : file_counter + sky_group_size]` with
`file_counter = i * sky_group_size`. -/
def group_files (fnames : List String) (g : ℕ) : List (List String) :=
  (List.range (ngroups_adjusted fnames.length g)).map
    (fun i => (fnames.drop (i * g)).take g)

/-- Python slice `s[-a : -b]` (for `b ≤ a`), clamped at the string start
exactly as Python clamps negative indices. -/
def pySliceNeg (s : String) (a b : ℕ) : String :=
  String.mk ((s.data.drop (s.length - a)).take ((s.length - b) - (s.length - a)))

/-- Python index `s[-k]`: the character `k` places from the end, or an
`IndexError` (`none`) when the string is shorter than `k`. -/
def pyIdxNeg (s : String) (k : ℕ) : Option Char :=
  if s.length < k then none else s.data.get? (s.length - k)

/-- Lexicographic (code-point) order on character lists, the order
Python uses to compare strings. -/
def listCharLe : List Char → List Char → Bool
  | [], _ => true
  | _ :: _, [] => false
  | a :: as, b :: bs => if a = b then listCharLe as bs else decide (a < b)

/-- Python string comparison `s <= t` (lexicographic on code points). -/
def py_str_le (s t : String) : Bool := listCharLe s.data t.data

/-- Insert into a sorted list (helper of `str_sort`). -/
def str_insert (x : String) : List String → List String
  | [] => [x]
  | y :: ys => if py_str_le x y then x :: y :: ys else y :: str_insert x ys

/-- Python `list.sort()` on strings: ascending lexicographic order.
Insertion sort is extensionally the unique correct result here — any
two sorted rearrangements of the same string multiset are equal. -/
def str_sort : List String → List String
  | [] => []
  | x :: xs => str_insert x (str_sort xs)

/-- Python `s.endswith(post)`. -/
def py_endswith (s post : String) : Bool := post.data.isSuffixOf s.data

/-- Python `s.startswith(pre)`. -/
def py_startswith (s pre : String) : Bool := pre.data.isPrefixOf s.data

/-- Python `os.path.join(d, f)` for the cases that arise here. -/
def os_path_join (d f : String) : String :=
  if d = "" then f
  else if py_startswith f "/" then f
  else if py_endswith d "/" then d ++ f
  else d ++ "/" ++ f

/-- Input-suffix filter of `gen_sky_image` (lines 63-64): keep the
files ending in `.ramp.new` or `.flat.fits`. -/
def gen_sky_select (listing : List String) : List String :=
  listing.filter (fun f => py_endswith f ".ramp.new" || py_endswith f ".flat.fits")

/-- Input-suffix filter of `gen_flat_sky_image` (lines 103-104). -/
def gen_flat_sky_select (listing : List String) : List String :=
  listing.filter (fun f => py_endswith f ".ramp.new" || py_endswith f ".flat.fits")

/-- Input-suffix filter of `gen_mean_flat_sky_image` (lines 144-145). -/
def gen_mean_flat_sky_select (listing : List String) : List String :=
  listing.filter (fun f => py_endswith f ".ramp.new" || py_endswith f ".flat.fits")

/-- Selected files joined to the source directory and sorted
lexicographically (`image_fnames.sort()`), for `gen_sky_image`. -/
def sorted_fnames (science_data_directory : String) (listing : List String) :
    List String :=
  str_sort ((gen_sky_select listing).map (os_path_join science_data_directory))

/-- Same for `gen_flat_sky_image` (its own copy of the filter). -/
def sorted_fnames_flat (science_data_directory : String) (listing : List String) :
    List String :=
  str_sort ((gen_flat_sky_select listing).map (os_path_join science_data_directory))

/-- Failure modes of the embedded pipeline: the `IndexError` raised by
`image_fnames[-1]` on an empty selection is the spec's
`EmptyInputError`; `indexError` is the `IndexError` a too-short filename
would raise at `image_fnames[0][-10]`. -/
inductive Err where
  | emptyInput
  | indexError
deriving DecidableEq

/-- The one `writeto(output_directory + save_name, overwrite=True)` call
that ends an invocation: target path, sample matrix, header, overwrite
flag. -/
structure WriteCall (m n : ℕ) where
  path : String
  data : Mat m n
  header : Header
  overwrite : Bool

/-- Lines 93-98 of the source, shared shape of the cascade trigger and
the final cleanup: run the repair strategy when the missing percentage
reaches the threshold, then unconditionally replace every still-missing
sample by the global nanmedian. -/
def sky_finish (repair : Mat m n → Mat m n) (sky : Mat m n) (nan_thresh : ℚ) :
    Mat m n :=
  let sky2 := if nanPercent sky ≥ nan_thresh then repair sky else sky
  fillMissing sky2 (nanmedianAll sky2)

/-- Body of `gen_sky_image` from line 69 on, with the selected, sorted,
nonempty file list `f0 :: rest`. -/
def gen_sky_core (getdata : String → Mat m n) (getheader : String → Header)
    (output_directory : String) (sky_group_size : Option ℕ) (sigma : Option ℚ)
    (clip : ClipFun m n) (nan_thresh : ℚ) (f0 : String) (rest : List String) :
    Except Err (WriteCall m n) :=
  let image_fnames := f0 :: rest
  let nfiles := image_fnames.length
  let g := sky_group_size.getD nfiles
  let lastF := rest.getLastD f0
  let header := getheader lastF
  let filter1 := header_get header "FILTER1" "unknown"
  let filter2 := header_get header "FILTER2" "unknown"
  match pyIdxNeg f0 10 with
  | none => Except.error Err.indexError
  | some det =>
    let save_name := "sky." ++ filter1 ++ "-" ++ filter2 ++ "." ++
      pySliceNeg f0 19 11 ++ "-" ++ pySliceNeg lastF 19 11 ++ ".C" ++
      String.mk [det] ++ ".fits"
    let median_array := (group_files image_fnames g).map (fun gf =>
      nanmedianStack (gf.map (fun f =>
        normalizeImg (sigma_clipped clip (getdata f) sigma))))
    let sky := nanmedianStack median_array
    let sky2 := sky_finish (fun s => median_filter_masking s 50) sky nan_thresh
    Except.ok ⟨output_directory ++ save_name, sky2, header, true⟩

/-- Source `gen_sky_image(science_data_directory, output_directory,
sky_group_size=None, sigma=None, nan_thresh=3)`.  `listing` is the
`os.listdir` result; `getdata`/`getheader` are the Image Store Adapter. -/
def gen_sky_image (science_data_directory : String) (listing : List String)
    (getdata : String → Mat m n) (getheader : String → Header)
    (output_directory : String) (sky_group_size : Option ℕ) (sigma : Option ℚ)
    (clip : ClipFun m n) (nan_thresh : ℚ) : Except Err (WriteCall m n) :=
  match sorted_fnames science_data_directory listing with
  | [] => Except.error Err.emptyInput
  | f0 :: rest =>
    gen_sky_core getdata getheader output_directory sky_group_size sigma clip
      nan_thresh f0 rest

/-- Body of `gen_flat_sky_image` from line 109 on: same pipeline with
filename offsets `[-20:-12]` and `[-11]` and the mean-filter repair. -/
def gen_flat_sky_core (getdata : String → Mat m n) (getheader : String → Header)
    (output_directory : String) (sky_group_size : Option ℕ) (sigma : Option ℚ)
    (clip : ClipFun m n) (nan_thresh : ℚ) (f0 : String) (rest : List String) :
    Except Err (WriteCall m n) :=
  let image_fnames := f0 :: rest
  let nfiles := image_fnames.length
  let g := sky_group_size.getD nfiles
  let lastF := rest.getLastD f0
  let header := getheader lastF
  let filter1 := header_get header "FILTER1" "unknown"
  let filter2 := header_get header "FILTER2" "unknown"
  match pyIdxNeg f0 11 with
  | none => Except.error Err.indexError
  | some det =>
    let save_name := "sky." ++ filter1 ++ "-" ++ filter2 ++ "." ++
      pySliceNeg f0 20 12 ++ "-" ++ pySliceNeg lastF 20 12 ++ ".C" ++
      String.mk [det] ++ ".fits"
    let median_array := (group_files image_fnames g).map (fun gf =>
      nanmedianStack (gf.map (fun f =>
        normalizeImg (sigma_clipped clip (getdata f) sigma))))
    let sky := nanmedianStack median_array
    let sky2 := sky_finish (fun s => mean_filter_masking s 30) sky nan_thresh
    Except.ok ⟨output_directory ++ save_name, sky2, header, true⟩

/-- Source `gen_flat_sky_image(science_data_directory, output_directory,
sky_group_size=None, sigma=None, nan_thresh=0)`. -/
def gen_flat_sky_image (science_data_directory : String) (listing : List String)
    (getdata : String → Mat m n) (getheader : String → Header)
    (output_directory : String) (sky_group_size : Option ℕ) (sigma : Option ℚ)
    (clip : ClipFun m n) (nan_thresh : ℚ) : Except Err (WriteCall m n) :=
  match sorted_fnames_flat science_data_directory listing with
  | [] => Except.error Err.emptyInput
  | f0 :: rest =>
    gen_flat_sky_core getdata getheader output_directory sky_group_size sigma
      clip nan_thresh f0 rest

/-- Output filename exactly as the claim describes it for
`gen_sky_image`: filters from the header of the last sorted file
(default `unknown`), sequence ids at fixed offsets `[-19:-11]` of the
first and last sorted filenames, detector at offset `[-10]` of the
first; `none` when the first filename is too short for the detector
index. -/
def spec_save_name (hdr : Header) (firstF lastF : String) : Option String :=
  match pyIdxNeg firstF 10 with
  | none => none
  | some det =>
    some ("sky." ++ header_get hdr "FILTER1" "unknown" ++ "-" ++
      header_get hdr "FILTER2" "unknown" ++ "." ++
      pySliceNeg firstF 19 11 ++ "-" ++ pySliceNeg lastF 19 11 ++ ".C" ++
      String.mk [det] ++ ".fits")

/-- Modelled from the spec wording of claim C8 (the source uses a square
`uniform_filter` instead): local mean over the disk-shaped neighborhood
of radius `size` (offsets with `di² + dj² ≤ size²`), averaging the
in-bounds samples of the seeded matrix. -/
def diskMean (M : Mat m n) (size : ℕ) : Mat m n :=
  fun i j =>
    let offs := (List.range (2 * size + 1)).map (fun k => (k : ℤ) - (size : ℕ))
    let vals := offs.flatMap (fun di => offs.filterMap (fun dj =>
      if di ^ 2 + dj ^ 2 ≤ (size : ℤ) ^ 2 then
        (if hx : 0 ≤ (i : ℤ) + di ∧ (i : ℤ) + di < (m : ℤ) ∧
            0 ≤ (j : ℤ) + dj ∧ (j : ℤ) + dj < (n : ℤ) then
          some (M ⟨((i : ℤ) + di).toNat, by omega⟩ ⟨((j : ℤ) + dj).toNat, by omega⟩)
        else none)
      else none))
    (optSumList vals).map (fun x => x / (vals.length : ℚ))

/-- Modelled from the spec wording of claim C8: seed the missing samples
with the global median, compute the disk-shaped-neighborhood local mean
of the seeded matrix, and replace the originally-missing samples with
the filtered value. -/
def spec_disk_mean_filter_masking (image : Mat m n) (size : ℕ := 30) : Mat m n :=
  let filter_image := fillMissing image (nanmedianAll image)
  let mean_filter_image := diskMean filter_image size
  fun i j => if image i j = none then mean_filter_image i j else image i j

/-! Helper lemmas shared by several claim proofs. -/

/-- The decrement branch of the group-count computation never fires:
`⌊n/g⌋ * g ≤ n`, so `ngroups_adjusted` is plain floor division. -/
theorem ngroups_adjusted_eq_div (nfiles g : ℕ) :
    ngroups_adjusted nfiles g = nfiles / g := by
  unfold ngroups_adjusted
  simp only [gt_iff_lt]
  rw [if_neg (not_lt.mpr (Nat.div_mul_le_self nfiles g))]

/-- Every index pair belongs to the `positions` enumeration. -/
theorem mem_positions {m n : ℕ} (p : Fin m × Fin n) : p ∈ positions m n := by
  unfold positions
  rw [List.mem_flatMap]
  exact ⟨p.1, List.mem_finRange _, List.mem_map.mpr ⟨p.2, List.mem_finRange _, rfl⟩⟩

/-- A matrix with a non-missing sample has a non-missing global nanmedian. -/
theorem nanmedianAll_ne_none {m n : ℕ} (M : Mat m n) (i : Fin m) (j : Fin n)
    (h : M i j ≠ none) : nanmedianAll M ≠ none := by
  obtain ⟨v, hv⟩ := Option.ne_none_iff_exists'.mp h
  unfold nanmedianAll nanmedian1
  have hmem : v ∈ ((positions m n).map (fun p => M p.1 p.2)).filterMap id := by
    rw [List.mem_filterMap]
    exact ⟨some v, List.mem_map.mpr ⟨(i, j), mem_positions _, hv⟩, rfl⟩
  simp only [if_neg (List.ne_nil_of_mem hmem)]
  exact Option.some_ne_none _

/-- Repair stage `median_filter_masking` keeps every valid sample unchanged. -/
theorem median_filter_masking_valid {m n : ℕ} (M : Mat m n) (s : ℕ)
    (i : Fin m) (j : Fin n) (h : M i j ≠ none) :
    median_filter_masking M s i j = M i j := by
  unfold median_filter_masking
  simp [h]

/-- Repair stage `mean_filter_masking` keeps every valid sample unchanged. -/
theorem mean_filter_masking_valid {m n : ℕ} (M : Mat m n) (s : ℕ)
    (i : Fin m) (j : Fin n) (h : M i j ≠ none) :
    mean_filter_masking M s i j = M i j := by
  unfold mean_filter_masking
  simp [h]

/-- A sample missing after `median_filter_masking` was already missing. -/
theorem median_filter_masking_none {m n : ℕ} (M : Mat m n) (s : ℕ)
    (i : Fin m) (j : Fin n) (h : median_filter_masking M s i j = none) :
    M i j = none := by
  by_contra hne
  rw [median_filter_masking_valid M s i j hne] at h
  exact hne h

/-- A sample missing after `mean_filter_masking` was already missing. -/
theorem mean_filter_masking_none {m n : ℕ} (M : Mat m n) (s : ℕ)
    (i : Fin m) (j : Fin n) (h : mean_filter_masking M s i j = none) :
    M i j = none := by
  by_contra hne
  rw [mean_filter_masking_valid M s i j hne] at h
  exact hne h

/-- Positionwise missingness implication bounds the missing count. -/
theorem missingCount_le_of_imp {m n : ℕ} (A B : Mat m n)
    (h : ∀ i j, A i j = none → B i j = none) :
    missingCount A ≤ missingCount B := by
  unfold missingCount
  refine List.countP_mono_left (fun p _ hp => ?_)
  exact decide_eq_true (h p.1 p.2 (of_decide_eq_true hp))

/-- The final fill leaves no missing sample when the fill value and the
surviving samples are non-missing as appropriate. -/
theorem missingCount_fillMissing_eq_zero {m n : ℕ} (M : Mat m n) (v : Option ℚ)
    (hv : v ≠ none) : missingCount (fillMissing M v) = 0 := by
  unfold missingCount
  rw [List.countP_eq_zero]
  intro p _
  simp only [decide_eq_true_eq]
  unfold fillMissing
  by_cases h : M p.1 p.2 = none
  · simp [h, hv]
  · simp [h]

/-- Claim C2: for every file count `n ≥ 1` and group size `g ≥ 1`, the
computed group count equals `⌊n/g⌋`, and the decrement branch is
unreachable: multiplying the count back by `g` never exceeds `n`. -/
theorem group_count_is_floor_and_branch_dead (n g : ℕ) (_hn : 1 ≤ n) (_hg : 1 ≤ g) :
    ngroups_adjusted n g = n / g ∧ ¬ (n / g * g > n) :=
  ⟨ngroups_adjusted_eq_div n g, not_lt.mpr (Nat.div_mul_le_self n g)⟩

/-- Witness for C2 at `n = 7`, `g = 3`. -/
theorem group_count_is_floor_and_branch_dead_witness :
    ngroups_adjusted 7 3 = 7 / 3 ∧ ¬ (7 / 3 * 3 > 7) :=
  group_count_is_floor_and_branch_dead 7 3 (by decide) (by decide)

/-- Claim C4: outlier rejection with `sigma = None` is the identity
pass-through — `sigma_clipped(image, None, sky)` returns the image with
every sample unchanged, for every image, sky reference and (opaque)
clipping routine. -/
theorem sigma_clipped_none_passthrough {m n : ℕ} (clip : ClipFun m n)
    (image sky : Mat m n) : sigma_clipped clip image none sky = image := rfl

/-- Claim C7: with exactly one group the cross-group aggregation
(`np.nanmedian` over a single-element stack) returns that group's
combined matrix unchanged, and when the group size defaults to the full
file count `k ≥ 1` the pipeline indeed forms exactly one group. -/
theorem single_group_identity {m n : ℕ} (M : Mat m n) (k : ℕ) (hk : 1 ≤ k) :
    nanmedianStack [M] = M ∧ ngroups_adjusted k k = 1 := by
  constructor
  · funext i j
    have h1 : nanmedianStack [M] i j = nanmedian1 [M i j] := rfl
    rw [h1]
    cases h : M i j with
    | none => with_unfolding_all rfl
    | some v => with_unfolding_all rfl
  · rw [ngroups_adjusted_eq_div, Nat.div_self hk]

/-- Witness for C7 at a concrete 1×1 matrix and `k = 3`. -/
theorem single_group_identity_witness :
    nanmedianStack [(fun _ _ => some 5 : Mat 1 1)] = (fun _ _ => some 5 : Mat 1 1) ∧
    ngroups_adjusted 3 3 = 1 :=
  single_group_identity (fun _ _ => some 5 : Mat 1 1) 3 (by decide)

/-- Claim C10: the three generator functions all select exactly the
files whose names end in `.ramp.new` or `.flat.fits` — the same
union-of-both-families filter in every mode. -/
theorem selection_union_both_families (listing : List String) :
    gen_sky_select listing = gen_flat_sky_select listing ∧
    gen_flat_sky_select listing = gen_mean_flat_sky_select listing ∧
    ∀ f, f ∈ gen_sky_select listing ↔
      (f ∈ listing ∧
        (py_endswith f ".ramp.new" = true ∨ py_endswith f ".flat.fits" = true)) := by
  refine ⟨rfl, rfl, fun f => ?_⟩
  unfold gen_sky_select
  rw [List.mem_filter, Bool.or_eq_true]

/-- Witness for C10: a directory holding one file of each family plus a
non-matching file; both families pass the same selection. -/
theorem selection_union_both_families_witness :
    "a.ramp.new" ∈ gen_sky_select ["a.ramp.new", "b.flat.fits", "c.txt"] ∧
    "b.flat.fits" ∈ gen_sky_select ["a.ramp.new", "b.flat.fits", "c.txt"] :=
  ⟨((selection_union_both_families ["a.ramp.new", "b.flat.fits", "c.txt"]).2.2
      "a.ramp.new").mpr ⟨by decide, Or.inl (by decide)⟩,
   ((selection_union_both_families ["a.ramp.new", "b.flat.fits", "c.txt"]).2.2
      "b.flat.fits").mpr ⟨by decide, Or.inr (by decide)⟩⟩

/-- Claim C1 (counterexample): with `n = 3` sorted files and group size
`g = 2` (so `1 ≤ g ≤ n`), the controller forms one group of two files
and the third file belongs to no group — the concatenation of the
groups is not the full sorted list. -/
theorem grouping_partition_counterexample :
    group_files ["a", "b", "c"] 2 = [["a", "b"]] ∧
    ¬ ((group_files ["a", "b", "c"] 2).flatten = ["a", "b", "c"]) := by
  with_unfolding_all decide

/-- Claim C1 (amended): for `g ≥ 1` the groups are the first `⌊n/g⌋`
consecutive slices of exactly `g` files each (every group, the last
included, has `g` members); their concatenation is the first
`⌊n/g⌋ * g` files of the sorted list — the whole list exactly when `g`
divides `n`, with the trailing `n mod g` files dropped otherwise; for a
duplicate-free file list the groups are pairwise disjoint. -/
theorem grouping_partition_amended (l : List String) (g : ℕ) (hg : 1 ≤ g)
    (hnd : l.Nodup) :
    (group_files l g).flatten = l.take (l.length / g * g) ∧
    (∀ G ∈ group_files l g, G.length = g) ∧
    List.Pairwise (fun G₁ G₂ => ∀ x ∈ G₁, x ∉ G₂) (group_files l g) ∧
    (g ∣ l.length → (group_files l g).flatten = l) := by
  have hslices : ∀ k : ℕ,
      ((List.range k).map (fun i => (l.drop (i * g)).take g)).flatten =
        l.take (k * g) := by
    intro k
    induction k with
    | zero => simp
    | succ k ih =>
      rw [List.range_succ, List.map_append, List.flatten_append,
        Nat.succ_mul, List.take_add]
      simp [ih]
  have hflat : (group_files l g).flatten = l.take (l.length / g * g) := by
    unfold group_files
    rw [ngroups_adjusted_eq_div, hslices]
  refine ⟨hflat, ?_, ?_, ?_⟩
  · intro G hG
    unfold group_files at hG
    rw [ngroups_adjusted_eq_div] at hG
    obtain ⟨i, hi, rfl⟩ := List.mem_map.mp hG
    rw [List.mem_range] at hi
    have h1 : (i + 1) * g ≤ l.length / g * g :=
      Nat.mul_le_mul_right g hi
    have h2 : l.length / g * g ≤ l.length := Nat.div_mul_le_self _ _
    have h3 : (i + 1) * g = i * g + g := by ring
    simp only [List.length_take, List.length_drop]
    omega
  · unfold group_files
    rw [ngroups_adjusted_eq_div, List.pairwise_map]
    refine (List.pairwise_lt_range _).imp ?_
    intro a b hab x hxa hxb
    have hxa2 : x ∈ l.take (a * g + g) := by
      have : (l.drop (a * g)).take g = (l.take (a * g + g)).drop (a * g) := by
        rw [List.drop_take]
        congr 1
        omega
      rw [this] at hxa
      exact List.drop_subset _ _ hxa
    have hxb2 : x ∈ l.drop (b * g) := List.take_subset _ _ hxb
    have hle : a * g + g ≤ b * g := by
      have h4 : (a + 1) * g ≤ b * g := Nat.mul_le_mul_right g hab
      have h5 : (a + 1) * g = a * g + g := by ring
      omega
    exact (List.disjoint_take_drop hnd hle) hxa2 hxb2
  · intro hdvd
    rw [hflat, Nat.div_mul_cancel hdvd, List.take_length]

/-- Witness for the amended C1 at five distinct files and `g = 2`: two
groups of two, the fifth file dropped. -/
theorem grouping_partition_amended_witness :
    (group_files ["a", "b", "c", "d", "e"] 2).flatten =
      (["a", "b", "c", "d", "e"] : List String).take
        ((["a", "b", "c", "d", "e"] : List String).length / 2 * 2) ∧
    (∀ G ∈ group_files ["a", "b", "c", "d", "e"] 2, G.length = 2) ∧
    List.Pairwise (fun G₁ G₂ => ∀ x ∈ G₁, x ∉ G₂)
      (group_files ["a", "b", "c", "d", "e"] 2) ∧
    (2 ∣ (["a", "b", "c", "d", "e"] : List String).length →
      (group_files ["a", "b", "c", "d", "e"] 2).flatten =
        ["a", "b", "c", "d", "e"]) :=
  grouping_partition_amended ["a", "b", "c", "d", "e"] 2 (by decide)
    (by with_unfolding_all decide)

/-- Claim C3: on a source directory with no file ending in `.ramp.new`
or `.flat.fits`, both `gen_sky_image` and `gen_flat_sky_image` fail
with the empty-input error — for every store adapter, configuration and
clipping routine, so before any combination work can depend on them. -/
theorem empty_input_aborts {m n : ℕ} (science_dir : String)
    (listing : List String) (getdata : String → Mat m n)
    (getheader : String → Header) (outdir : String) (gsz : Option ℕ)
    (sigma : Option ℚ) (clip : ClipFun m n) (t1 t2 : ℚ)
    (h : ∀ f ∈ listing,
      py_endswith f ".ramp.new" = false ∧ py_endswith f ".flat.fits" = false) :
    gen_sky_image science_dir listing getdata getheader outdir gsz sigma clip
      t1 = Except.error Err.emptyInput ∧
    gen_flat_sky_image science_dir listing getdata getheader outdir gsz sigma
      clip t2 = Except.error Err.emptyInput := by
  have hsel : listing.filter
      (fun f => py_endswith f ".ramp.new" || py_endswith f ".flat.fits") = [] := by
    rw [List.filter_eq_nil_iff]
    intro f hf
    simp [(h f hf).1, (h f hf).2]
  constructor
  · have hs : sorted_fnames science_dir listing = [] := by
      unfold sorted_fnames gen_sky_select
      rw [hsel]
      rfl
    unfold gen_sky_image
    rw [hs]
  · have hs : sorted_fnames_flat science_dir listing = [] := by
      unfold sorted_fnames_flat gen_flat_sky_select
      rw [hsel]
      rfl
    unfold gen_flat_sky_image
    rw [hs]

/-- Witness for C3: a directory holding only `x.txt`. -/
theorem empty_input_aborts_witness :
    gen_sky_image (m := 1) (n := 1) "d" ["x.txt"] (fun _ => fun _ _ => some 0)
      (fun _ => []) "o/" none none (fun _ _ => fun _ _ => false) 3 =
      Except.error Err.emptyInput ∧
    gen_flat_sky_image (m := 1) (n := 1) "d" ["x.txt"]
      (fun _ => fun _ _ => some 0) (fun _ => []) "o/" none none
      (fun _ _ => fun _ _ => false) 0 = Except.error Err.emptyInput :=
  empty_input_aborts "d" ["x.txt"] (fun _ => fun _ _ => some 0) (fun _ => [])
    "o/" none none (fun _ _ => fun _ _ => false) 3 0
    (by intro f hf; simp at hf; subst hf; constructor <;> with_unfolding_all decide)

/-- Claim C6: the elementwise group combination is missing at a position
iff every member is missing there, and where some member is valid it is
the median of the valid member samples at that position. -/
theorem group_combination_missing_iff {m n : ℕ} (imgs : List (Mat m n))
    (i : Fin m) (j : Fin n) :
    (nanmedianStack imgs i j = none ↔ ∀ M ∈ imgs, M i j = none) ∧
    ((∃ M ∈ imgs, M i j ≠ none) →
      nanmedianStack imgs i j =
        some (npmedian ((imgs.map (fun M => M i j)).filterMap id))) := by
  have hiff : ((imgs.map (fun M => M i j)).filterMap id = []) ↔
      ∀ M ∈ imgs, M i j = none := by
    rw [List.filterMap_eq_nil_iff]
    constructor
    · intro h M hM
      exact h _ (List.mem_map_of_mem _ hM)
    · intro h a ha
      obtain ⟨M, hM, rfl⟩ := List.mem_map.mp ha
      exact h M hM
  have hdef : nanmedianStack imgs i j =
      (if (imgs.map (fun M => M i j)).filterMap id = [] then none
        else some (npmedian ((imgs.map (fun M => M i j)).filterMap id))) := rfl
  constructor
  · rw [hdef]
    by_cases h : (imgs.map (fun M => M i j)).filterMap id = []
    · rw [if_pos h]
      exact iff_of_true rfl (hiff.mp h)
    · rw [if_neg h]
      exact iff_of_false (by simp) (fun hc => h (hiff.mpr hc))
  · rintro ⟨M, hM, hv⟩
    have hne : (imgs.map (fun M => M i j)).filterMap id ≠ [] :=
      fun hc => hv (hiff.mp hc M hM)
    rw [hdef, if_neg hne]

/-- Witness for C6, the spec scenario: three 2×2 images, the first with
a fully missing first row, the other two valid there; at position
`(0, 0)` the combination is the median of the two valid samples. -/
theorem group_combination_missing_iff_witness :
    nanmedianStack
      [(fun i _ => if i = 0 then none else some 7 : Mat 2 2),
       (fun _ _ => some 1 : Mat 2 2),
       (fun _ _ => some 2 : Mat 2 2)] 0 0 =
      some (npmedian
        ((([(fun i _ => if i = 0 then none else some 7 : Mat 2 2),
            (fun _ _ => some 1 : Mat 2 2),
            (fun _ _ => some 2 : Mat 2 2)].map (fun M => M 0 0)).filterMap id))) :=
  (group_combination_missing_iff
      [(fun i _ => if i = 0 then none else some 7 : Mat 2 2),
       (fun _ _ => some 1 : Mat 2 2),
       (fun _ _ => some 2 : Mat 2 2)] 0 0).2
    ⟨(fun _ _ => some 1 : Mat 2 2),
     List.mem_cons_of_mem _ (List.mem_cons_self _ _),
     by with_unfolding_all decide⟩

/-- Concrete 1×2 matrix for the local-mean repair comparison: one
missing sample next to a valid sample of 4. -/
def meanRepairExample : Mat 1 2 := fun _ j => if j = 0 then none else some 4

set_option maxRecDepth 8000 in
/-- Claim C8 (counterexample): on `[[NaN, 4]]` the source replaces the
missing sample with the square-window zero-padded box mean `8/900 =
2/225` of the seeded matrix, not with the disk-shaped-neighborhood mean
`4` the claim describes — the two repairs disagree at this sample. -/
theorem mean_filter_disk_counterexample :
    (mean_filter_masking meanRepairExample 30) 0 0 = some (2 / 225) ∧
    (spec_disk_mean_filter_masking meanRepairExample 30) 0 0 = some 4 ∧
    ¬ ((mean_filter_masking meanRepairExample 30) 0 0 =
        (spec_disk_mean_filter_masking meanRepairExample 30) 0 0) := by
  refine ⟨?_, ?_, ?_⟩ <;> with_unfolding_all decide

/-- Claim C8 (amended): in `mean_filter_masking`, missing positions are
first seeded with the matrix's global missing-ignoring median, a local
box mean over a square window of default width 30 with zero padding
(`ndimage.uniform_filter(·, size=30, mode='constant')`; the
`disk(30)` footprint is built but unused) is computed over the seeded
matrix, and exactly the originally-missing positions receive the
filtered values while originally-valid samples are returned unchanged. -/
theorem mean_filter_masking_amended {m n : ℕ} (image : Mat m n)
    (i : Fin m) (j : Fin n) :
    (image i j ≠ none → mean_filter_masking image 30 i j = image i j) ∧
    (image i j = none → mean_filter_masking image 30 i j =
      uniformFilter (fillMissing image (nanmedianAll image)) 30 i j) := by
  unfold mean_filter_masking
  constructor
  · intro h
    simp [h]
  · intro h
    simp [h]

/-- Witness for the amended C8 on the concrete `[[NaN, 4]]` matrix: the
valid sample is returned unchanged and the missing sample receives the
box-mean of the seeded matrix. -/
theorem mean_filter_masking_amended_witness :
    mean_filter_masking meanRepairExample 30 0 1 = meanRepairExample 0 1 ∧
    mean_filter_masking meanRepairExample 30 0 0 =
      uniformFilter (fillMissing meanRepairExample (nanmedianAll meanRepairExample))
        30 0 0 :=
  ⟨(mean_filter_masking_amended meanRepairExample 0 1).1
      (by with_unfolding_all decide),
   (mean_filter_masking_amended meanRepairExample 0 0).2
      (by with_unfolding_all decide)⟩

/-- The finishing step (optional repair + unconditional global-median
fill) leaves zero missing samples whenever the incoming matrix has at
least one valid sample and the repair never invalidates a valid
sample. -/
theorem sky_finish_no_missing {m n : ℕ} (repair : Mat m n → Mat m n)
    (hrep : ∀ N : Mat m n, ∀ i j, repair N i j = none → N i j = none)
    (M : Mat m n) (t : ℚ) (i : Fin m) (j : Fin n) (h : M i j ≠ none) :
    missingCount (sky_finish repair M t) = 0 := by
  have hdef : sky_finish repair M t =
      fillMissing (if nanPercent M ≥ t then repair M else M)
        (nanmedianAll (if nanPercent M ≥ t then repair M else M)) := rfl
  rw [hdef]
  by_cases hc : nanPercent M ≥ t
  · rw [if_pos hc]
    have hv : repair M i j ≠ none := fun hcc => h (hrep M i j hcc)
    exact missingCount_fillMissing_eq_zero _ _ (nanmedianAll_ne_none _ i j hv)
  · rw [if_neg hc]
    exact missingCount_fillMissing_eq_zero _ _ (nanmedianAll_ne_none _ i j h)

/-- Claim C5 (amended): both repair stages only replace missing samples
(valid samples keep their values), the missing count never increases
through either stage, and the always-applied final cleanup leaves zero
missing samples — under the precondition that the provisional SkyModel
entering the cascade has at least one non-missing sample (a non-missing
input sample is not enough: a valid sample of value 0 in an image of
zero nanmedian turns missing during `img / np.nanmedian(img)`
normalization). -/
theorem gap_filling_cascade_amended {m n : ℕ} (M : Mat m n) (t : ℚ) :
    (∀ i j, M i j ≠ none →
      median_filter_masking M 50 i j = M i j ∧
      mean_filter_masking M 30 i j = M i j) ∧
    missingCount (median_filter_masking M 50) ≤ missingCount M ∧
    missingCount (mean_filter_masking M 30) ≤ missingCount M ∧
    ((∃ i j, M i j ≠ none) →
      missingCount (sky_finish (fun s => median_filter_masking s 50) M t) = 0 ∧
      missingCount (sky_finish (fun s => mean_filter_masking s 30) M t) = 0) := by
  refine ⟨fun i j h => ⟨median_filter_masking_valid M 50 i j h,
      mean_filter_masking_valid M 30 i j h⟩,
    missingCount_le_of_imp _ _ (fun i j => median_filter_masking_none M 50 i j),
    missingCount_le_of_imp _ _ (fun i j => mean_filter_masking_none M 30 i j),
    ?_⟩
  rintro ⟨i, j, hvalid⟩
  exact ⟨sky_finish_no_missing _ (fun N i j => median_filter_masking_none N 50 i j)
      M t i j hvalid,
    sky_finish_no_missing _ (fun N i j => mean_filter_masking_none N 30 i j)
      M t i j hvalid⟩

/-- Witness for the amended C5 at a concrete 1×2 matrix with one valid
and one missing sample. -/
theorem gap_filling_cascade_amended_witness :
    missingCount (sky_finish (fun s => median_filter_masking s 50)
      (fun _ j => if j = 0 then some 1 else none : Mat 1 2) 3) = 0 ∧
    missingCount (sky_finish (fun s => mean_filter_masking s 30)
      (fun _ j => if j = 0 then some 1 else none : Mat 1 2) 3) = 0 :=
  (gap_filling_cascade_amended
      (fun _ j => if j = 0 then some 1 else none : Mat 1 2) 3).2.2.2
    ⟨0, 0, by with_unfolding_all decide⟩

/-- The single-file store of the C5 counterexample: one registered
frame whose matrix is the 1×1 image `[[0]]`. -/
def zeroListing : List String := ["00000001C1.ramp.new"]

/-- Image Store Adapter data map of the C5 counterexample. -/
def zeroGetdata : String → Mat 1 1 := fun _ => fun _ _ => some 0

/-- Image Store Adapter header map of the C5 counterexample. -/
def zeroGetheader : String → Header := fun _ => []

/-- Opaque clipping routine of the C5 counterexample (never consulted:
`sigma` is `None`). -/
def zeroClip : ClipFun 1 1 := fun _ _ => fun _ _ => false

set_option maxRecDepth 8000 in
/-- Claim C5 (counterexample): a directory holding the single image
`[[0]]` — so at least one input sample at some position is non-missing —
for which `gen_sky_image` (default configuration: one group,
`sigma = None`, threshold 3) persists a matrix whose single sample is
still missing: normalization computes `0 / 0 = NaN`, every repair works
on an all-missing matrix, and the final global-median fill writes NaN
back.  The persisted missing count is 1, not 0. -/
theorem gap_filling_cascade_counterexample :
    zeroGetdata "d/00000001C1.ramp.new" 0 0 ≠ none ∧
    (gen_sky_image "d" zeroListing zeroGetdata zeroGetheader "out/" none none
        zeroClip 3).toOption.map (fun w => missingCount w.data) = some 1 := by
  refine ⟨?_, ?_⟩ <;> with_unfolding_all decide

/-- Claim C9: for a non-empty selected-and-sorted input list
`f0 :: rest` (with `f0` long enough for the fixed detector offset, as
every real path is), `gen_sky_image` writes its matrix under
`output_directory + save_name` where `save_name` is exactly the
claim's `sky.{FILTER1}-{FILTER2}.{seqFirst}-{seqLast}.C{det}.fits`
pattern (`spec_save_name`): filters read from the header of the last
sorted file with default `unknown`, sequence ids at offsets `[-19:-11]`
of the first and last sorted filenames, detector at offset `[-10]` of
the first — with the inherited header and `overwrite = true`. -/
theorem output_naming {m n : ℕ} (science_dir : String) (listing : List String)
    (getdata : String → Mat m n) (getheader : String → Header)
    (outdir : String) (gsz : Option ℕ) (sigma : Option ℚ) (clip : ClipFun m n)
    (t : ℚ) (f0 lastF : String) (rest : List String)
    (hsort : sorted_fnames science_dir listing = f0 :: rest)
    (hlast : rest.getLastD f0 = lastF)
    (hlen : 10 ≤ f0.length) :
    ∃ sn d, spec_save_name (getheader lastF) f0 lastF = some sn ∧
      gen_sky_image science_dir listing getdata getheader outdir gsz sigma clip
        t = Except.ok ⟨outdir ++ sn, d, getheader lastF, true⟩ := by
  have hlt : f0.length - 10 < f0.data.length := by
    have hld : f0.length = f0.data.length := rfl
    omega
  have hc : pyIdxNeg f0 10 = some (f0.data.get ⟨f0.length - 10, hlt⟩) := by
    unfold pyIdxNeg
    rw [if_neg (by omega)]
    exact List.get?_eq_get hlt
  simp only [gen_sky_image, hsort]
  simp only [gen_sky_core, hc, hlast, spec_save_name]
  exact ⟨_, _, rfl, rfl⟩

/-- Header map of the C9 witness store. -/
def namingGetheader : String → Header := fun f =>
  if f = "d/00000002C1.ramp.new" then [("FILTER1", "Open"), ("FILTER2", "J")]
  else []

/-- Witness for C9: two registered frames listed out of order; the name
is derived from the sorted first/last files and the last file's header. -/
theorem output_naming_witness :
    ∃ sn d, spec_save_name (namingGetheader "d/00000002C1.ramp.new")
        "d/00000001C1.ramp.new" "d/00000002C1.ramp.new" = some sn ∧
      gen_sky_image "d" ["00000002C1.ramp.new", "00000001C1.ramp.new"]
        (fun _ => fun _ _ => some (0 : ℚ) : String → Mat 1 1) namingGetheader
        "o/" none none zeroClip 3 =
        Except.ok ⟨"o/" ++ sn, d,
          namingGetheader "d/00000002C1.ramp.new", true⟩ :=
  output_naming "d" ["00000002C1.ramp.new", "00000001C1.ramp.new"]
    (fun _ => fun _ _ => some (0 : ℚ)) namingGetheader "o/" none none zeroClip 3
    "d/00000001C1.ramp.new" "d/00000002C1.ramp.new" ["d/00000002C1.ramp.new"]
    (by with_unfolding_all decide) (by with_unfolding_all decide) (by decide)
